import Mathlib

/-!
Verification of the connection-lifecycle logic of `source/Common/TcpServer.cpp`
(Elite Robots CS SDK), shallowly embedded in Lean 4.

The embedding has three parts:

1. A byte-stream model of the Read Loop's delivery discipline.  `doRead` arms
   `boost::asio::async_read(*sock, boost::asio::buffer(read_buffer_), read_cb)`
   (TcpServer.cpp line 122); per the asio contract of `async_read` over a whole
   buffer, a completion without error occurs exactly when the buffer has been
   filled, so each successful completion delivers exactly `recv_buf_size` bytes,
   taken in order from the peer's byte stream.  `deliveries B sent` is the list
   of byte blocks handed to the receive callback when the peer's stream is
   `sent` and the fixed buffer capacity is `B`.

2. A state machine for one `TcpServer` endpoint.  Each asio completion handler
   runs as one atomic step: all handlers execute on the single reactor thread
   and take `socket_mutex_` around slot mutation, so handler-granularity
   atomicity is faithful.  Sockets are named by `Nat` identifiers; `openS i`
   models `socket i` being open, `slot` models the `socket_` member,
   `acceptArmed`/`pendingSock` model an outstanding `async_accept` into a fresh
   socket, `readArmed i` models an outstanding `async_read` on socket `i`.
   `failedS` is a ghost history variable recording that socket `i`'s read loop
   completed with an error (used only to state properties).  `engineAlive`
   models the reactor thread being alive: an exception escaping a completion
   handler propagates out of `io_context::run`, is caught by the `try/catch` in
   `TcpServer::start`'s thread body, and the thread exits, after which no
   further completion runs.

3. A model of the static engine lifecycle `TcpServer::start` / `TcpServer::stop`
   over the three static members (`s_server_thread_`, `s_work_guard_ptr_`,
   `s_io_context_ptr_`), with ghost spawn/join counters for thread accounting.
   `stopE` returns an error value where the C++ dereferences a null
   `std::shared_ptr` (undefined behaviour, a crash in practice).
-/

namespace ELITE

/-! ## Byte-stream model of the Read Loop deliveries -/

/-- Fuel-indexed worker for `deliveries`.  One recursion step is one successful
completion of `async_read` over the full buffer: it consumes exactly `B` bytes
from the front of the remaining stream and delivers them.  When fewer than `B`
bytes remain, no further successful completion occurs (the read either stays
pending or completes with an error), so nothing more is delivered. -/
def deliveriesAux (B : Nat) : Nat → List Nat → List (List Nat)
  | 0, _ => []
  | fuel + 1, sent =>
    if 0 < B ∧ B ≤ sent.length then
      sent.take B :: deliveriesAux B fuel (sent.drop B)
    else []

/-- The byte blocks delivered to the receive callback, in delivery order, when
the peer's whole stream is `sent` and the receive buffer capacity is `B`.
`sent.length` fuel suffices since every step consumes at least one byte. -/
def deliveries (B : Nat) (sent : List Nat) : List (List Nat) :=
  deliveriesAux B sent.length sent

/-! ## Endpoint state machine -/

/-- Telemetry events recorded by `ELITE_LOG_INFO` / `ELITE_LOG_ERROR` in
`TcpServer.cpp` (the addresses and error texts in the messages are not
modelled, only which event was recorded and for which socket). -/
inductive LogEvent where
  /-- "TCP port %d has new connection and close old client" (accept success,
  old occupant closed). -/
  | replacedOld : LogEvent
  /-- "TCP port %d accept new connection fail, and close old connection"
  (accept failure, old occupant closed). -/
  | acceptFailClosedOld : LogEvent
  /-- "TCP port %d accept client" (new socket installed). -/
  | acceptedConn : Nat → LogEvent
  /-- "TCP port %d close client ... Reason" (read failure closed the socket). -/
  | readFailClosed : Nat → LogEvent
deriving DecidableEq

/-- State of one `TcpServer` endpoint plus the pending asio operations that its
handlers created.  Sockets are identified by the order of their creation in
`doAccept` (`nextId` is the next fresh identifier). -/
structure EPState where
  /-- `acceptor_` is non-null and open (set at construction, cleared only by
  the destructor, which is outside the modelled lifetime). -/
  acceptorOpen : Bool
  /-- The `socket_` member: the Connection Slot occupant, if any.  The code
  may leave `socket_` pointing at a closed socket (`readFail` on the current
  occupant closes it without resetting `socket_`). -/
  slot : Option Nat
  /-- `openS i = true` iff socket `i` exists and `is_open()`. -/
  openS : Nat → Bool
  /-- `readArmed i = true` iff an `async_read` is outstanding on socket `i`. -/
  readArmed : Nat → Bool
  /-- Ghost history: socket `i`'s read loop has completed with an error.
  Not a field of the C++ object; used only to state properties. -/
  failedS : Nat → Bool
  /-- An `async_accept` is outstanding on the acceptor. -/
  acceptArmed : Bool
  /-- The fresh socket the outstanding `async_accept` will fill (the
  `new_socket` captured by `accept_cb`). -/
  pendingSock : Option Nat
  /-- Next fresh socket identifier. -/
  nextId : Nat
  /-- The engine thread is alive.  An exception escaping a completion handler
  leaves `io_context::run`, is caught in `TcpServer::start`'s thread body,
  and the thread exits: no further completion handler runs. -/
  engineAlive : Bool
  /-- Recorded telemetry events, newest first. -/
  log : List LogEvent

/-- Pointwise update of a `Nat → Bool` map. -/
def setOpen (f : Nat → Bool) (i : Nat) (b : Bool) : Nat → Bool :=
  fun j => if j = i then b else f j

/-- Mirrors `TcpServer::closeSocket` (lines 183-189): when the socket is open,
`cancel`, `shutdown(shutdown_both)`, `close`, every error code discarded.  In
the model the three calls collapse to clearing the open flag. -/
def closeSocket (s : EPState) (i : Nat) : EPState :=
  if s.openS i then { s with openS := setOpen s.openS i false } else s

/-- Mirrors `TcpServer::doAccept` (lines 39-97) up to its `async_accept` call:
if `acceptor_` is null, return; otherwise create a fresh `new_socket` and arm
one asynchronous accept on it. -/
def doAccept (s : EPState) : EPState :=
  if s.acceptorOpen then
    { s with acceptArmed := true, pendingSock := some s.nextId,
             nextId := s.nextId + 1 }
  else s

/-- Mirrors `TcpServer::doRead` (lines 99-123) up to its `async_read` call:
arm one asynchronous read of the whole `read_buffer_` on `sock`. -/
def doRead (s : EPState) (i : Nat) : EPState :=
  { s with readArmed := setOpen s.readArmed i true }

/-- Entry of the `accept_cb` success branch: the outstanding accept is
consumed, and `new_socket` (identifier `nid`) is now an open, connected
socket. -/
def acceptEntry (s : EPState) (nid : Nat) : EPState :=
  { s with acceptArmed := false, pendingSock := none,
           openS := setOpen s.openS nid true }

/-- Mirrors lines 53-60 of `accept_cb`: `if (self->socket_ &&
self->socket_->is_open())` then `closeSocket` the old occupant and record the
given event (`ELITE_LOG_INFO` on the success branch, `ELITE_LOG_ERROR` on the
failure branch). -/
def acceptCloseOld (ev : LogEvent) (s : EPState) : EPState :=
  match s.slot with
  | some o => if s.openS o then { closeSocket s o with log := ev :: s.log } else s
  | none => s

/-- State of the success branch right after the old occupant was closed (lines
53-60), before any socket option is set, before the new socket is installed
and before its read loop is launched. -/
def acceptMid (s : EPState) (nid : Nat) : EPState :=
  acceptCloseOld .replacedOld (acceptEntry s nid)

/-- Mirrors one `set_option(option, ignore_ec)` call (lines 62-64:
`reuse_address`, `no_delay`, `keep_alive`): the error code is written into
`ignore_ec` and discarded, so the outcome is the same whether the call failed
(`fail = true`) or not. -/
def setOptionIgnoreEc (s : EPState) (_fail : Bool) : EPState := s

/-- Mirrors the `accept_cb` success branch (lines 51-77).  `rF`, `ndF`, `kaF`
say whether the three `ignore_ec` option calls fail; `lf` says whether one of
the two Linux-only `set_option` calls (lines 66-67, `TCP_QUICKACK`,
`SO_PRIORITY` -- the overloads WITHOUT an error-code argument) fails.  A
failing `ignore_ec` call changes nothing; a failing Linux call throws
`boost::system::system_error`, so the handler aborts before `socket_` is
updated and before `doRead`/`doAccept`: the lambda is unwound, the last
shared reference to `new_socket` is dropped (its destructor closes it), and
the exception kills the engine thread. -/
def acceptOkHandler (s : EPState) (nid : Nat) (rF ndF kaF lf : Bool) : EPState :=
  let s1 := setOptionIgnoreEc (setOptionIgnoreEc (setOptionIgnoreEc
              (acceptMid s nid) rF) ndF) kaF
  if lf then
    { s1 with openS := setOpen s1.openS nid false, engineAlive := false }
  else
    let s2 := { s1 with slot := some nid, log := .acceptedConn nid :: s1.log }
    doAccept (doRead s2 nid)

/-- Mirrors the `accept_cb` failure branch (lines 78-93): close the old
occupant if open (recording an error event), `socket_.reset()`, then
`doAccept` again. -/
def acceptFailHandler (s : EPState) : EPState :=
  let s1 := acceptCloseOld .acceptFailClosedOld
              { s with acceptArmed := false, pendingSock := none }
  doAccept { s1 with slot := none }

/-- Mirrors the `read_cb` success branch (lines 103-108): the completed read is
consumed, the receive callback is invoked (no endpoint state change), and
`doRead` re-arms a read on the same socket. -/
def readOkHandler (s : EPState) (i : Nat) : EPState :=
  doRead { s with readArmed := setOpen s.readArmed i false } i

/-- Mirrors the `read_cb` failure branch (lines 109-120): the completed read is
consumed and not re-armed (ghost flag `failedS i` set); if the socket is still
open it is closed via `closeSocket` and an informational event recorded. -/
def readFailHandler (s : EPState) (i : Nat) : EPState :=
  let s0 := { s with readArmed := setOpen s.readArmed i false,
                     failedS := setOpen s.failedS i true }
  if s0.openS i then
    { closeSocket s0 i with log := .readFailClosed i :: s0.log }
  else s0

/-- Mirrors `TcpServer::writeClient` (lines 161-172).  `wb` and `ec` model the
value and error code produced by the underlying blocking
`boost::asio::write` call.  Result: the returned `int`, paired with whether a
write was performed at all. -/
def writeClient (s : EPState) (wb : Int) (ec : Bool) : Int × Bool :=
  match s.slot with
  | some _ => (if wb < 0 ∨ ec = true then -1 else wb, true)
  | none => (-1, false)

/-- Mirrors `TcpServer::isClientConnected` (lines 174-180). -/
def isClientConnected (s : EPState) : Bool :=
  match s.slot with
  | some c => s.openS c
  | none => false

/-- Endpoint state right after the constructor: acceptor open, no client
socket, nothing armed. -/
def initEP : EPState :=
  { acceptorOpen := true, slot := none, openS := fun _ => false,
    readArmed := fun _ => false, failedS := fun _ => false,
    acceptArmed := false, pendingSock := none, nextId := 0,
    engineAlive := true, log := [] }

/-- Mirrors `TcpServer::startListen` (line 37): arm the first accept. -/
def startListen (s : EPState) : EPState := doAccept s

/-- Endpoint state after construction and `startListen()`. -/
def initState : EPState := startListen initEP

/-- One completion dispatched by the reactor.  Handlers run atomically (single
reactor thread, `socket_mutex_`); a step requires the engine thread to be
alive.  A successful read completion requires the socket to be open (a socket
closed with a pending read completes with `operation_aborted`, i.e. the
failure branch). -/
inductive Step : EPState → EPState → Prop
  /-- `async_accept` completes without error; the four flags say which
  socket-option calls fail. -/
  | acceptOk (s : EPState) (nid : Nat) (rF ndF kaF lf : Bool)
      (hAlive : s.engineAlive = true)
      (hArm : s.acceptArmed = true) (hPend : s.pendingSock = some nid) :
      Step s (acceptOkHandler s nid rF ndF kaF lf)
  /-- `async_accept` completes with an error. -/
  | acceptFail (s : EPState)
      (hAlive : s.engineAlive = true) (hArm : s.acceptArmed = true) :
      Step s (acceptFailHandler s)
  /-- `async_read` on socket `i` completes without error (buffer full). -/
  | readOk (s : EPState) (i : Nat)
      (hAlive : s.engineAlive = true)
      (hArm : s.readArmed i = true) (hOpen : s.openS i = true) :
      Step s (readOkHandler s i)
  /-- `async_read` on socket `i` completes with an error (peer close,
  cancellation, ...). -/
  | readFail (s : EPState) (i : Nat)
      (hAlive : s.engineAlive = true) (hArm : s.readArmed i = true) :
      Step s (readFailHandler s i)

/-- States reachable from `initState` by dispatching completions. -/
def Reachable (s : EPState) : Prop :=
  Relation.ReflTransGen Step initState s

/-- Inductive invariant of the endpoint state machine. -/
structure Inv (s : EPState) : Prop where
  /-- Every open socket is the Connection Slot occupant (hence at most one
  socket is open at any instant). -/
  openSlot : ∀ j, s.openS j = true → s.slot = some j
  /-- The socket an outstanding accept will fill is fresh: closed, no read
  armed, never failed, not the slot occupant. -/
  pendFresh : ∀ p, s.pendingSock = some p →
    s.openS p = false ∧ s.readArmed p = false ∧ s.failedS p = false ∧
    s.slot ≠ some p
  /-- A socket whose read loop failed has no read armed and is closed. -/
  failedDead : ∀ i, s.failedS i = true →
    s.readArmed i = false ∧ s.openS i = false
  /-- Every socket the state mentions was allocated. -/
  bound : ∀ i, s.openS i = true ∨ s.readArmed i = true ∨ s.failedS i = true ∨
    s.slot = some i → i < s.nextId
  /-- The pending accept socket was allocated. -/
  pendBound : ∀ p, s.pendingSock = some p → p < s.nextId

/-! ## Engine lifecycle model -/

/-- The three static members of `TcpServer` (lines 190-192), as
null-or-not-null flags, plus ghost counters of threads spawned and joined.
`thread`, `workGuard`, `ioCtx` model `s_server_thread_`, `s_work_guard_ptr_`,
`s_io_context_ptr_` being non-null. -/
structure EngineState where
  thread : Bool
  workGuard : Bool
  ioCtx : Bool
  spawned : Nat
  joined : Nat
deriving DecidableEq

/-- Static state before any `start()`: all three pointers null. -/
def initEngine : EngineState :=
  { thread := false, workGuard := false, ioCtx := false, spawned := 0, joined := 0 }

/-- Mirrors `TcpServer::start` (lines 125-148): if `s_server_thread_` is
non-null, return (idempotence guard); otherwise create the io context if
absent, install the work guard, and spawn the one reactor thread. -/
def startE (s : EngineState) : EngineState :=
  if s.thread then s
  else
    let s1 := if s.ioCtx then s else { s with ioCtx := true }
    { s1 with workGuard := true, thread := true, spawned := s1.spawned + 1 }

/-- Where `TcpServer::stop` crashes when its preconditions fail. -/
inductive StopCrash where
  /-- `s_work_guard_ptr_->reset()` dereferences a null `shared_ptr`
  (line 151). -/
  | workGuardNull : StopCrash
  /-- `s_io_context_ptr_->stop()` dereferences a null `shared_ptr`
  (line 152). -/
  | ioCtxNull : StopCrash
deriving DecidableEq

/-- Mirrors `TcpServer::stop` (lines 150-159), statement by statement:
`s_work_guard_ptr_->reset()` (null dereference if the pointer is null), then
`s_io_context_ptr_->stop()` (likewise), then join the thread if joinable,
then release all three static pointers. -/
def stopE (s : EngineState) : Except StopCrash EngineState :=
  if s.workGuard = false then .error .workGuardNull
  else if s.ioCtx = false then .error .ioCtxNull
  else .ok { thread := false, workGuard := false, ioCtx := false,
             spawned := s.spawned,
             joined := s.joined + (if s.thread then 1 else 0) }

end ELITE

namespace ELITE

/-! ## Helper lemmas -/

@[simp]
theorem setOpen_same (f : Nat → Bool) (i : Nat) (b : Bool) : setOpen f i b i = b := by
  simp [setOpen]

theorem setOpen_ne (f : Nat → Bool) (i : Nat) (b : Bool) (j : Nat) (h : j ≠ i) :
    setOpen f i b j = f j := by
  simp [setOpen, h]

@[simp]
theorem setOptionIgnoreEc_id (s : EPState) (f : Bool) : setOptionIgnoreEc s f = s := rfl

theorem acceptCloseOld_slot (ev : LogEvent) (t : EPState) :
    (acceptCloseOld ev t).slot = t.slot := by
  unfold acceptCloseOld closeSocket
  split <;> try rfl
  split_ifs <;> rfl

theorem acceptCloseOld_readArmed (ev : LogEvent) (t : EPState) :
    (acceptCloseOld ev t).readArmed = t.readArmed := by
  unfold acceptCloseOld closeSocket
  split <;> try rfl
  split_ifs <;> rfl

theorem acceptCloseOld_failedS (ev : LogEvent) (t : EPState) :
    (acceptCloseOld ev t).failedS = t.failedS := by
  unfold acceptCloseOld closeSocket
  split <;> try rfl
  split_ifs <;> rfl

theorem acceptCloseOld_acceptArmed (ev : LogEvent) (t : EPState) :
    (acceptCloseOld ev t).acceptArmed = t.acceptArmed := by
  unfold acceptCloseOld closeSocket
  split <;> try rfl
  split_ifs <;> rfl

theorem acceptCloseOld_pendingSock (ev : LogEvent) (t : EPState) :
    (acceptCloseOld ev t).pendingSock = t.pendingSock := by
  unfold acceptCloseOld closeSocket
  split <;> try rfl
  split_ifs <;> rfl

theorem acceptCloseOld_nextId (ev : LogEvent) (t : EPState) :
    (acceptCloseOld ev t).nextId = t.nextId := by
  unfold acceptCloseOld closeSocket
  split <;> try rfl
  split_ifs <;> rfl

theorem acceptCloseOld_engineAlive (ev : LogEvent) (t : EPState) :
    (acceptCloseOld ev t).engineAlive = t.engineAlive := by
  unfold acceptCloseOld closeSocket
  split <;> try rfl
  split_ifs <;> rfl

theorem acceptCloseOld_acceptorOpen (ev : LogEvent) (t : EPState) :
    (acceptCloseOld ev t).acceptorOpen = t.acceptorOpen := by
  unfold acceptCloseOld closeSocket
  split <;> try rfl
  split_ifs <;> rfl

theorem acceptCloseOld_openS_some (ev : LogEvent) (t : EPState) (o : Nat)
    (h : t.slot = some o) (j : Nat) :
    (acceptCloseOld ev t).openS j = if j = o then false else t.openS j := by
  unfold acceptCloseOld closeSocket
  rw [h]
  by_cases ho : t.openS o = true
  · simp only [ho, if_true]
    by_cases hj : j = o <;> simp [setOpen, hj, ho]
  · simp only [Bool.not_eq_true] at ho
    simp only [ho, Bool.false_eq_true, if_false]
    by_cases hj : j = o <;> simp [hj, ho]

theorem acceptCloseOld_openS_none (ev : LogEvent) (t : EPState)
    (h : t.slot = none) :
    (acceptCloseOld ev t).openS = t.openS := by
  unfold acceptCloseOld
  rw [h]

theorem acceptMid_openS_some (s : EPState) (nid o : Nat) (h : s.slot = some o)
    (j : Nat) :
    (acceptMid s nid).openS j =
      if j = o then false else setOpen s.openS nid true j := by
  unfold acceptMid
  rw [acceptCloseOld_openS_some _ _ o (by simpa [acceptEntry] using h)]
  rfl

theorem acceptMid_openS_none (s : EPState) (nid : Nat) (h : s.slot = none) :
    (acceptMid s nid).openS = setOpen s.openS nid true := by
  unfold acceptMid
  rw [acceptCloseOld_openS_none _ _ (by simpa [acceptEntry] using h)]
  rfl

theorem acceptMid_slot (s : EPState) (nid : Nat) :
    (acceptMid s nid).slot = s.slot := by
  unfold acceptMid
  rw [acceptCloseOld_slot]
  rfl

theorem acceptMid_readArmed (s : EPState) (nid : Nat) :
    (acceptMid s nid).readArmed = s.readArmed := by
  unfold acceptMid
  rw [acceptCloseOld_readArmed]
  rfl

theorem acceptMid_failedS (s : EPState) (nid : Nat) :
    (acceptMid s nid).failedS = s.failedS := by
  unfold acceptMid
  rw [acceptCloseOld_failedS]
  rfl

theorem acceptMid_nextId (s : EPState) (nid : Nat) :
    (acceptMid s nid).nextId = s.nextId := by
  unfold acceptMid
  rw [acceptCloseOld_nextId]
  rfl

theorem acceptMid_acceptorOpen (s : EPState) (nid : Nat) :
    (acceptMid s nid).acceptorOpen = s.acceptorOpen := by
  unfold acceptMid
  rw [acceptCloseOld_acceptorOpen]
  rfl

theorem acceptMid_engineAlive (s : EPState) (nid : Nat) :
    (acceptMid s nid).engineAlive = s.engineAlive := by
  unfold acceptMid
  rw [acceptCloseOld_engineAlive]
  rfl

theorem acceptMid_pendingSock (s : EPState) (nid : Nat) :
    (acceptMid s nid).pendingSock = none := by
  unfold acceptMid
  rw [acceptCloseOld_pendingSock]
  rfl

theorem acceptMid_acceptArmed (s : EPState) (nid : Nat) :
    (acceptMid s nid).acceptArmed = false := by
  unfold acceptMid
  rw [acceptCloseOld_acceptArmed]
  rfl

/-! Field characterizations of the accept success handler, throwing branch. -/

theorem acceptOk_throw_slot (s : EPState) (nid : Nat) (rF ndF kaF : Bool) :
    (acceptOkHandler s nid rF ndF kaF true).slot = s.slot := by
  simp [acceptOkHandler, acceptMid_slot]

theorem acceptOk_throw_openS (s : EPState) (nid : Nat) (rF ndF kaF : Bool)
    (j : Nat) :
    (acceptOkHandler s nid rF ndF kaF true).openS j =
      setOpen (acceptMid s nid).openS nid false j := by
  simp [acceptOkHandler]

theorem acceptOk_throw_readArmed (s : EPState) (nid : Nat) (rF ndF kaF : Bool) :
    (acceptOkHandler s nid rF ndF kaF true).readArmed = s.readArmed := by
  simp [acceptOkHandler, acceptMid_readArmed]

theorem acceptOk_throw_failedS (s : EPState) (nid : Nat) (rF ndF kaF : Bool) :
    (acceptOkHandler s nid rF ndF kaF true).failedS = s.failedS := by
  simp [acceptOkHandler, acceptMid_failedS]

theorem acceptOk_throw_acceptArmed (s : EPState) (nid : Nat) (rF ndF kaF : Bool) :
    (acceptOkHandler s nid rF ndF kaF true).acceptArmed = false := by
  simp [acceptOkHandler, acceptMid_acceptArmed]

theorem acceptOk_throw_pendingSock (s : EPState) (nid : Nat) (rF ndF kaF : Bool) :
    (acceptOkHandler s nid rF ndF kaF true).pendingSock = none := by
  simp [acceptOkHandler, acceptMid_pendingSock]

theorem acceptOk_throw_nextId (s : EPState) (nid : Nat) (rF ndF kaF : Bool) :
    (acceptOkHandler s nid rF ndF kaF true).nextId = s.nextId := by
  simp [acceptOkHandler, acceptMid_nextId]

theorem acceptOk_throw_engineAlive (s : EPState) (nid : Nat) (rF ndF kaF : Bool) :
    (acceptOkHandler s nid rF ndF kaF true).engineAlive = false := by
  simp [acceptOkHandler]

/-! Field characterizations of the accept success handler, normal branch. -/

theorem acceptOk_ok_slot (s : EPState) (nid : Nat) (rF ndF kaF : Bool) :
    (acceptOkHandler s nid rF ndF kaF false).slot = some nid := by
  simp only [acceptOkHandler, setOptionIgnoreEc_id, Bool.false_eq_true, if_false,
    doAccept, doRead]
  split <;> rfl

theorem acceptOk_ok_openS (s : EPState) (nid : Nat) (rF ndF kaF : Bool)
    (j : Nat) :
    (acceptOkHandler s nid rF ndF kaF false).openS j =
      (acceptMid s nid).openS j := by
  simp only [acceptOkHandler, setOptionIgnoreEc_id, Bool.false_eq_true, if_false,
    doAccept, doRead]
  split <;> rfl

theorem acceptOk_ok_readArmed (s : EPState) (nid : Nat) (rF ndF kaF : Bool)
    (j : Nat) :
    (acceptOkHandler s nid rF ndF kaF false).readArmed j =
      setOpen s.readArmed nid true j := by
  simp only [acceptOkHandler, setOptionIgnoreEc_id, Bool.false_eq_true, if_false,
    doAccept, doRead]
  split <;> simp [acceptMid_readArmed, setOpen]

theorem acceptOk_ok_failedS (s : EPState) (nid : Nat) (rF ndF kaF : Bool) :
    (acceptOkHandler s nid rF ndF kaF false).failedS = s.failedS := by
  simp only [acceptOkHandler, setOptionIgnoreEc_id, Bool.false_eq_true, if_false,
    doAccept, doRead]
  split <;> simp [acceptMid_failedS]

theorem acceptOk_ok_engineAlive (s : EPState) (nid : Nat) (rF ndF kaF : Bool) :
    (acceptOkHandler s nid rF ndF kaF false).engineAlive = s.engineAlive := by
  simp only [acceptOkHandler, setOptionIgnoreEc_id, Bool.false_eq_true, if_false,
    doAccept, doRead]
  split <;> simp [acceptMid_engineAlive]

theorem acceptOk_ok_acceptArmed (s : EPState) (nid : Nat) (rF ndF kaF : Bool)
    (hao : s.acceptorOpen = true) :
    (acceptOkHandler s nid rF ndF kaF false).acceptArmed = true := by
  simp [acceptOkHandler, doAccept, doRead, acceptMid_acceptorOpen, hao]

theorem acceptOk_ok_pendingSock (s : EPState) (nid : Nat) (rF ndF kaF : Bool)
    (hao : s.acceptorOpen = true) :
    (acceptOkHandler s nid rF ndF kaF false).pendingSock = some s.nextId := by
  simp [acceptOkHandler, doAccept, doRead, acceptMid_acceptorOpen, hao,
    acceptMid_nextId]

theorem acceptOk_ok_nextId (s : EPState) (nid : Nat) (rF ndF kaF : Bool)
    (hao : s.acceptorOpen = true) :
    (acceptOkHandler s nid rF ndF kaF false).nextId = s.nextId + 1 := by
  simp [acceptOkHandler, doAccept, doRead, acceptMid_acceptorOpen, hao,
    acceptMid_nextId]

theorem acceptOk_ok_acceptArmed_noacc (s : EPState) (nid : Nat)
    (rF ndF kaF : Bool) (hao : s.acceptorOpen = false) :
    (acceptOkHandler s nid rF ndF kaF false).acceptArmed = false := by
  simp [acceptOkHandler, doAccept, doRead, acceptMid_acceptorOpen, hao,
    acceptMid_acceptArmed]

theorem acceptOk_ok_pendingSock_noacc (s : EPState) (nid : Nat)
    (rF ndF kaF : Bool) (hao : s.acceptorOpen = false) :
    (acceptOkHandler s nid rF ndF kaF false).pendingSock = none := by
  simp [acceptOkHandler, doAccept, doRead, acceptMid_acceptorOpen, hao,
    acceptMid_pendingSock]

theorem acceptOk_ok_nextId_noacc (s : EPState) (nid : Nat)
    (rF ndF kaF : Bool) (hao : s.acceptorOpen = false) :
    (acceptOkHandler s nid rF ndF kaF false).nextId = s.nextId := by
  simp [acceptOkHandler, doAccept, doRead, acceptMid_acceptorOpen, hao,
    acceptMid_nextId]

/-! Field characterizations of the accept failure handler. -/

theorem acceptFail_slot (s : EPState) : (acceptFailHandler s).slot = none := by
  simp only [acceptFailHandler, doAccept]
  split <;> rfl

theorem acceptFail_openS_some (s : EPState) (o : Nat) (h : s.slot = some o)
    (j : Nat) :
    (acceptFailHandler s).openS j = if j = o then false else s.openS j := by
  have h' : ({ s with acceptArmed := false, pendingSock := none } : EPState).slot
      = some o := h
  simp only [acceptFailHandler, doAccept]
  split <;>
    simpa using acceptCloseOld_openS_some .acceptFailClosedOld _ o h' j

theorem acceptFail_openS_none (s : EPState) (h : s.slot = none) (j : Nat) :
    (acceptFailHandler s).openS j = s.openS j := by
  have h' : ({ s with acceptArmed := false, pendingSock := none } : EPState).slot
      = none := h
  simp only [acceptFailHandler, doAccept]
  split <;>
    simpa using congrFun (acceptCloseOld_openS_none .acceptFailClosedOld _ h') j

theorem acceptFail_readArmed (s : EPState) :
    (acceptFailHandler s).readArmed = s.readArmed := by
  simp only [acceptFailHandler, doAccept]
  split <;> simpa using acceptCloseOld_readArmed .acceptFailClosedOld _

theorem acceptFail_failedS (s : EPState) :
    (acceptFailHandler s).failedS = s.failedS := by
  simp only [acceptFailHandler, doAccept]
  split <;> simpa using acceptCloseOld_failedS .acceptFailClosedOld _

theorem acceptFail_engineAlive (s : EPState) :
    (acceptFailHandler s).engineAlive = s.engineAlive := by
  simp only [acceptFailHandler, doAccept]
  split <;> simpa using acceptCloseOld_engineAlive .acceptFailClosedOld _

theorem acceptFail_acceptArmed (s : EPState) (hao : s.acceptorOpen = true) :
    (acceptFailHandler s).acceptArmed = true := by
  simp [acceptFailHandler, doAccept, acceptCloseOld_acceptorOpen, hao]

theorem acceptFail_pendingSock (s : EPState) (hao : s.acceptorOpen = true) :
    (acceptFailHandler s).pendingSock = some s.nextId := by
  simp [acceptFailHandler, doAccept, acceptCloseOld_acceptorOpen, hao,
    acceptCloseOld_nextId]

theorem acceptFail_nextId (s : EPState) (hao : s.acceptorOpen = true) :
    (acceptFailHandler s).nextId = s.nextId + 1 := by
  simp [acceptFailHandler, doAccept, acceptCloseOld_acceptorOpen, hao,
    acceptCloseOld_nextId]

theorem acceptFail_acceptArmed_noacc (s : EPState) (hao : s.acceptorOpen = false) :
    (acceptFailHandler s).acceptArmed = false := by
  simp [acceptFailHandler, doAccept, acceptCloseOld_acceptorOpen, hao,
    acceptCloseOld_acceptArmed]

theorem acceptFail_pendingSock_noacc (s : EPState) (hao : s.acceptorOpen = false) :
    (acceptFailHandler s).pendingSock = none := by
  simp [acceptFailHandler, doAccept, acceptCloseOld_acceptorOpen, hao,
    acceptCloseOld_pendingSock]

theorem acceptFail_nextId_noacc (s : EPState) (hao : s.acceptorOpen = false) :
    (acceptFailHandler s).nextId = s.nextId := by
  simp [acceptFailHandler, doAccept, acceptCloseOld_acceptorOpen, hao,
    acceptCloseOld_nextId]

/-! Field characterizations of the read handlers. -/

theorem readOk_readArmed (s : EPState) (i j : Nat) :
    (readOkHandler s i).readArmed j = setOpen s.readArmed i true j := by
  simp only [readOkHandler, doRead, setOpen]
  split <;> rfl

theorem readOk_slot (s : EPState) (i : Nat) :
    (readOkHandler s i).slot = s.slot := rfl

theorem readOk_openS (s : EPState) (i : Nat) :
    (readOkHandler s i).openS = s.openS := rfl

theorem readOk_failedS (s : EPState) (i : Nat) :
    (readOkHandler s i).failedS = s.failedS := rfl

theorem readOk_acceptArmed (s : EPState) (i : Nat) :
    (readOkHandler s i).acceptArmed = s.acceptArmed := rfl

theorem readOk_pendingSock (s : EPState) (i : Nat) :
    (readOkHandler s i).pendingSock = s.pendingSock := rfl

theorem readOk_nextId (s : EPState) (i : Nat) :
    (readOkHandler s i).nextId = s.nextId := rfl

theorem readOk_engineAlive (s : EPState) (i : Nat) :
    (readOkHandler s i).engineAlive = s.engineAlive := rfl

theorem readFail_openS (s : EPState) (i j : Nat) :
    (readFailHandler s i).openS j = setOpen s.openS i false j := by
  simp only [readFailHandler, closeSocket, setOpen]
  split_ifs <;> simp_all [setOpen]

theorem readFail_readArmed (s : EPState) (i j : Nat) :
    (readFailHandler s i).readArmed j = setOpen s.readArmed i false j := by
  simp only [readFailHandler, closeSocket, setOpen]
  split_ifs <;> simp_all [setOpen]

theorem readFail_failedS (s : EPState) (i j : Nat) :
    (readFailHandler s i).failedS j = setOpen s.failedS i true j := by
  simp only [readFailHandler, closeSocket, setOpen]
  split_ifs <;> simp_all [setOpen]

theorem readFail_slot (s : EPState) (i : Nat) :
    (readFailHandler s i).slot = s.slot := by
  simp only [readFailHandler, closeSocket]
  split_ifs <;> rfl

theorem readFail_acceptArmed (s : EPState) (i : Nat) :
    (readFailHandler s i).acceptArmed = s.acceptArmed := by
  simp only [readFailHandler, closeSocket]
  split_ifs <;> rfl

theorem readFail_pendingSock (s : EPState) (i : Nat) :
    (readFailHandler s i).pendingSock = s.pendingSock := by
  simp only [readFailHandler, closeSocket]
  split_ifs <;> rfl

theorem readFail_nextId (s : EPState) (i : Nat) :
    (readFailHandler s i).nextId = s.nextId := by
  simp only [readFailHandler, closeSocket]
  split_ifs <;> rfl

theorem readFail_engineAlive (s : EPState) (i : Nat) :
    (readFailHandler s i).engineAlive = s.engineAlive := by
  simp only [readFailHandler, closeSocket]
  split_ifs <;> rfl

theorem readFail_acceptorOpen (s : EPState) (i : Nat) :
    (readFailHandler s i).acceptorOpen = s.acceptorOpen := by
  simp only [readFailHandler, closeSocket]
  split_ifs <;> rfl

theorem readFail_log_open (s : EPState) (i : Nat) (h : s.openS i = true) :
    (readFailHandler s i).log = .readFailClosed i :: s.log := by
  simp [readFailHandler, closeSocket, h]

/-- A socket never open in a state where `Inv` holds: every open socket is the
slot occupant.  Specialised form used repeatedly below. -/
theorem Inv.open_eq_slot {s : EPState} (hs : Inv s) {j : Nat}
    (hj : s.openS j = true) : s.slot = some j := hs.openSlot j hj

theorem inv_initState : Inv initState := by
  refine ⟨?_, ?_, ?_, ?_, ?_⟩ <;>
    intro i hi <;>
    simp only [initState, startListen, doAccept, initEP] at hi ⊢ <;>
    simp_all

/-- After the old occupant was closed (mid state of the success branch), the
only socket that can be open is the freshly accepted one. -/
theorem acceptMid_open_iff {s : EPState} (hs : Inv s) {nid : Nat}
    (hSl : s.slot ≠ some nid) (j : Nat) :
    ((acceptMid s nid).openS j = true ↔ j = nid) := by
  rcases hc : s.slot with _ | o
  · rw [congrFun (acceptMid_openS_none s nid hc) j]
    constructor
    · intro hj
      by_contra hne
      rw [setOpen_ne _ _ _ _ hne] at hj
      have h2 := hs.open_eq_slot hj
      rw [hc] at h2
      exact Option.noConfusion h2
    · intro hj; subst hj; simp
  · have hone : o ≠ nid := fun h => hSl (h ▸ hc)
    rw [acceptMid_openS_some s nid o hc]
    constructor
    · intro hj
      by_cases hjo : j = o
      · subst hjo; simp at hj
      · rw [if_neg hjo] at hj
        by_cases hjn : j = nid
        · exact hjn
        · rw [setOpen_ne _ _ _ _ hjn] at hj
          have h2 := hs.open_eq_slot hj
          rw [hc] at h2
          injection h2 with h2
          exact absurd h2.symm hjo
    · intro hj
      subst hj
      rw [if_neg (fun h => hone h.symm)]
      simp

theorem inv_acceptOkHandler {s : EPState} (hs : Inv s) (nid : Nat)
    (rF ndF kaF lf : Bool) (hPend : s.pendingSock = some nid) :
    Inv (acceptOkHandler s nid rF ndF kaF lf) := by
  obtain ⟨hOp, hRa, hF, hSl⟩ := hs.pendFresh nid hPend
  have hnidlt : nid < s.nextId := hs.pendBound nid hPend
  have hmid := acceptMid_open_iff hs hSl
  by_cases hlf : lf = true
  · subst hlf
    refine ⟨?_, ?_, ?_, ?_, ?_⟩
    · intro j hj
      exfalso
      rw [acceptOk_throw_openS] at hj
      by_cases hje : j = nid
      · subst hje; simp at hj
      · rw [setOpen_ne _ _ _ _ hje] at hj
        exact hje ((hmid j).mp hj)
    · intro p hp
      rw [acceptOk_throw_pendingSock] at hp
      exact Option.noConfusion hp
    · intro i hi
      rw [acceptOk_throw_failedS] at hi
      obtain ⟨h1, h2⟩ := hs.failedDead i hi
      refine ⟨by rw [acceptOk_throw_readArmed]; exact h1, ?_⟩
      rw [acceptOk_throw_openS]
      by_cases hie : i = nid
      · subst hie; simp
      · rw [setOpen_ne _ _ _ _ hie]
        by_contra hcon
        simp only [Bool.not_eq_false] at hcon
        exact hie ((hmid i).mp hcon)
    · intro i hi
      rw [acceptOk_throw_nextId]
      rcases hi with hi | hi | hi | hi
      · exfalso
        rw [acceptOk_throw_openS] at hi
        by_cases hie : i = nid
        · subst hie; simp at hi
        · rw [setOpen_ne _ _ _ _ hie] at hi
          exact hie ((hmid i).mp hi)
      · rw [acceptOk_throw_readArmed] at hi
        exact hs.bound i (Or.inr (Or.inl hi))
      · rw [acceptOk_throw_failedS] at hi
        exact hs.bound i (Or.inr (Or.inr (Or.inl hi)))
      · rw [acceptOk_throw_slot] at hi
        exact hs.bound i (Or.inr (Or.inr (Or.inr hi)))
    · intro p hp
      rw [acceptOk_throw_pendingSock] at hp
      exact Option.noConfusion hp
  · replace hlf : lf = false := by
      cases lf
      · rfl
      · exact absurd rfl hlf
    subst hlf
    have hopen : ∀ j, (acceptOkHandler s nid rF ndF kaF false).openS j = true ↔
        j = nid := by
      intro j
      rw [acceptOk_ok_openS]
      exact hmid j
    refine ⟨?_, ?_, ?_, ?_, ?_⟩
    · intro j hj
      rw [acceptOk_ok_slot]
      exact congrArg some ((hopen j).mp hj).symm ▸ congrArg some rfl
    · intro p hp
      by_cases hao : s.acceptorOpen = true
      · rw [acceptOk_ok_pendingSock s nid rF ndF kaF hao] at hp
        injection hp with hp
        subst hp
        have hne : s.nextId ≠ nid := by omega
        refine ⟨?_, ?_, ?_, ?_⟩
        · by_contra hcon
          simp only [Bool.not_eq_false] at hcon
          exact hne ((hopen s.nextId).mp hcon)
        · rw [acceptOk_ok_readArmed, setOpen_ne _ _ _ _ hne]
          by_contra hcon
          simp only [Bool.not_eq_false] at hcon
          have := hs.bound s.nextId (Or.inr (Or.inl hcon))
          omega
        · rw [acceptOk_ok_failedS]
          by_contra hcon
          simp only [Bool.not_eq_false] at hcon
          have := hs.bound s.nextId (Or.inr (Or.inr (Or.inl hcon)))
          omega
        · rw [acceptOk_ok_slot]
          intro hcon
          injection hcon with hcon
          omega
      · replace hao : s.acceptorOpen = false := by
          cases h : s.acceptorOpen
          · rfl
          · exact absurd h hao
        rw [acceptOk_ok_pendingSock_noacc s nid rF ndF kaF hao] at hp
        exact Option.noConfusion hp
    · intro i hi
      rw [acceptOk_ok_failedS] at hi
      obtain ⟨h1, h2⟩ := hs.failedDead i hi
      have hine : i ≠ nid := fun h => by
        rw [h] at hi
        rw [hF] at hi
        exact Bool.noConfusion hi
      constructor
      · rw [acceptOk_ok_readArmed, setOpen_ne _ _ _ _ hine]
        exact h1
      · by_contra hcon
        simp only [Bool.not_eq_false] at hcon
        exact hine ((hopen i).mp hcon)
    · intro i hi
      have hbase : i < s.nextId := by
        rcases hi with hi | hi | hi | hi
        · have := (hopen i).mp hi
          omega
        · rw [acceptOk_ok_readArmed] at hi
          by_cases hie : i = nid
          · omega
          · rw [setOpen_ne _ _ _ _ hie] at hi
            exact hs.bound i (Or.inr (Or.inl hi))
        · rw [acceptOk_ok_failedS] at hi
          exact hs.bound i (Or.inr (Or.inr (Or.inl hi)))
        · rw [acceptOk_ok_slot] at hi
          injection hi with hi
          omega
      by_cases hao : s.acceptorOpen = true
      · rw [acceptOk_ok_nextId s nid rF ndF kaF hao]
        omega
      · replace hao : s.acceptorOpen = false := by
          cases h : s.acceptorOpen
          · rfl
          · exact absurd h hao
        rw [acceptOk_ok_nextId_noacc s nid rF ndF kaF hao]
        omega
    · intro p hp
      by_cases hao : s.acceptorOpen = true
      · rw [acceptOk_ok_pendingSock s nid rF ndF kaF hao] at hp
        injection hp with hp
        rw [acceptOk_ok_nextId s nid rF ndF kaF hao]
        omega
      · replace hao : s.acceptorOpen = false := by
          cases h : s.acceptorOpen
          · rfl
          · exact absurd h hao
        rw [acceptOk_ok_pendingSock_noacc s nid rF ndF kaF hao] at hp
        exact Option.noConfusion hp

theorem inv_acceptFailHandler {s : EPState} (hs : Inv s) :
    Inv (acceptFailHandler s) := by
  have hopen : ∀ j, (acceptFailHandler s).openS j = false := by
    intro j
    rcases hc : s.slot with _ | o
    · rw [acceptFail_openS_none s hc]
      by_contra hcon
      simp only [Bool.not_eq_false] at hcon
      have h2 := hs.open_eq_slot hcon
      rw [hc] at h2
      exact Option.noConfusion h2
    · rw [acceptFail_openS_some s o hc]
      by_cases hjo : j = o
      · simp [hjo]
      · rw [if_neg hjo]
        by_contra hcon
        simp only [Bool.not_eq_false] at hcon
        have h2 := hs.open_eq_slot hcon
        rw [hc] at h2
        injection h2 with h2
        exact absurd h2.symm hjo
  refine ⟨?_, ?_, ?_, ?_, ?_⟩
  · intro j hj
    rw [hopen j] at hj
    exact Bool.noConfusion hj
  · intro p hp
    by_cases hao : s.acceptorOpen = true
    · rw [acceptFail_pendingSock s hao] at hp
      injection hp with hp
      subst hp
      refine ⟨hopen _, ?_, ?_, ?_⟩
      · rw [acceptFail_readArmed]
        by_contra hcon
        simp only [Bool.not_eq_false] at hcon
        have := hs.bound s.nextId (Or.inr (Or.inl hcon))
        omega
      · rw [acceptFail_failedS]
        by_contra hcon
        simp only [Bool.not_eq_false] at hcon
        have := hs.bound s.nextId (Or.inr (Or.inr (Or.inl hcon)))
        omega
      · rw [acceptFail_slot]
        exact fun h => Option.noConfusion h
    · replace hao : s.acceptorOpen = false := by
        cases h : s.acceptorOpen
        · rfl
        · exact absurd h hao
      rw [acceptFail_pendingSock_noacc s hao] at hp
      exact Option.noConfusion hp
  · intro i hi
    rw [acceptFail_failedS] at hi
    obtain ⟨h1, _⟩ := hs.failedDead i hi
    exact ⟨by rw [acceptFail_readArmed]; exact h1, hopen i⟩
  · intro i hi
    have hbase : i < s.nextId := by
      rcases hi with hi | hi | hi | hi
      · rw [hopen i] at hi
        exact Bool.noConfusion hi
      · rw [acceptFail_readArmed] at hi
        exact hs.bound i (Or.inr (Or.inl hi))
      · rw [acceptFail_failedS] at hi
        exact hs.bound i (Or.inr (Or.inr (Or.inl hi)))
      · rw [acceptFail_slot] at hi
        exact Option.noConfusion hi
    by_cases hao : s.acceptorOpen = true
    · rw [acceptFail_nextId s hao]
      omega
    · replace hao : s.acceptorOpen = false := by
        cases h : s.acceptorOpen
        · rfl
        · exact absurd h hao
      rw [acceptFail_nextId_noacc s hao]
      omega
  · intro p hp
    by_cases hao : s.acceptorOpen = true
    · rw [acceptFail_pendingSock s hao] at hp
      injection hp with hp
      rw [acceptFail_nextId s hao]
      omega
    · replace hao : s.acceptorOpen = false := by
        cases h : s.acceptorOpen
        · rfl
        · exact absurd h hao
      rw [acceptFail_pendingSock_noacc s hao] at hp
      exact Option.noConfusion hp

theorem inv_readOkHandler {s : EPState} (hs : Inv s) (i : Nat)
    (hOpen : s.openS i = true) : Inv (readOkHandler s i) := by
  refine ⟨?_, ?_, ?_, ?_, ?_⟩
  · intro j hj
    rw [readOk_openS] at hj
    rw [readOk_slot]
    exact hs.openSlot j hj
  · intro p hp
    rw [readOk_pendingSock] at hp
    obtain ⟨h1, h2, h3, h4⟩ := hs.pendFresh p hp
    have hpi : p ≠ i := fun h => by rw [h, hOpen] at h1; exact Bool.noConfusion h1
    refine ⟨by rw [readOk_openS]; exact h1, ?_,
      by rw [readOk_failedS]; exact h3, by rw [readOk_slot]; exact h4⟩
    rw [readOk_readArmed, setOpen_ne _ _ _ _ hpi]
    exact h2
  · intro j hj
    rw [readOk_failedS] at hj
    obtain ⟨h1, h2⟩ := hs.failedDead j hj
    have hji : j ≠ i := fun h => by rw [h, hOpen] at h2; exact Bool.noConfusion h2
    refine ⟨?_, by rw [readOk_openS]; exact h2⟩
    rw [readOk_readArmed, setOpen_ne _ _ _ _ hji]
    exact h1
  · intro j hj
    rw [readOk_nextId]
    rcases hj with hj | hj | hj | hj
    · rw [readOk_openS] at hj
      exact hs.bound j (Or.inl hj)
    · rw [readOk_readArmed] at hj
      by_cases hji : j = i
      · subst hji
        exact hs.bound j (Or.inl hOpen)
      · rw [setOpen_ne _ _ _ _ hji] at hj
        exact hs.bound j (Or.inr (Or.inl hj))
    · rw [readOk_failedS] at hj
      exact hs.bound j (Or.inr (Or.inr (Or.inl hj)))
    · rw [readOk_slot] at hj
      exact hs.bound j (Or.inr (Or.inr (Or.inr hj)))
  · intro p hp
    rw [readOk_pendingSock] at hp
    rw [readOk_nextId]
    exact hs.pendBound p hp

theorem inv_readFailHandler {s : EPState} (hs : Inv s) (i : Nat)
    (hArm : s.readArmed i = true) : Inv (readFailHandler s i) := by
  refine ⟨?_, ?_, ?_, ?_, ?_⟩
  · intro j hj
    rw [readFail_openS] at hj
    rw [readFail_slot]
    by_cases hji : j = i
    · subst hji; simp at hj
    · rw [setOpen_ne _ _ _ _ hji] at hj
      exact hs.openSlot j hj
  · intro p hp
    rw [readFail_pendingSock] at hp
    obtain ⟨h1, h2, h3, h4⟩ := hs.pendFresh p hp
    have hpi : p ≠ i := fun h => by rw [h, hArm] at h2; exact Bool.noConfusion h2
    refine ⟨?_, ?_, ?_, by rw [readFail_slot]; exact h4⟩
    · rw [readFail_openS, setOpen_ne _ _ _ _ hpi]
      exact h1
    · rw [readFail_readArmed, setOpen_ne _ _ _ _ hpi]
      exact h2
    · rw [readFail_failedS, setOpen_ne _ _ _ _ hpi]
      exact h3
  · intro j hj
    rw [readFail_failedS] at hj
    by_cases hji : j = i
    · subst hji
      constructor
      · rw [readFail_readArmed]; simp
      · rw [readFail_openS]; simp
    · rw [setOpen_ne _ _ _ _ hji] at hj
      obtain ⟨h1, h2⟩ := hs.failedDead j hj
      constructor
      · rw [readFail_readArmed, setOpen_ne _ _ _ _ hji]; exact h1
      · rw [readFail_openS, setOpen_ne _ _ _ _ hji]; exact h2
  · intro j hj
    rw [readFail_nextId]
    have hilt : i < s.nextId := hs.bound i (Or.inr (Or.inl hArm))
    rcases hj with hj | hj | hj | hj
    · rw [readFail_openS] at hj
      by_cases hji : j = i
      · omega
      · rw [setOpen_ne _ _ _ _ hji] at hj
        exact hs.bound j (Or.inl hj)
    · rw [readFail_readArmed] at hj
      by_cases hji : j = i
      · subst hji; simp at hj
      · rw [setOpen_ne _ _ _ _ hji] at hj
        exact hs.bound j (Or.inr (Or.inl hj))
    · rw [readFail_failedS] at hj
      by_cases hji : j = i
      · omega
      · rw [setOpen_ne _ _ _ _ hji] at hj
        exact hs.bound j (Or.inr (Or.inr (Or.inl hj)))
    · rw [readFail_slot] at hj
      exact hs.bound j (Or.inr (Or.inr (Or.inr hj)))
  · intro p hp
    rw [readFail_pendingSock] at hp
    rw [readFail_nextId]
    exact hs.pendBound p hp

theorem inv_step {s t : EPState} (hs : Inv s) (hstep : Step s t) : Inv t := by
  cases hstep with
  | acceptOk nid rF ndF kaF lf hAlive hArm hPend =>
    exact inv_acceptOkHandler hs nid rF ndF kaF lf hPend
  | acceptFail hAlive hArm => exact inv_acceptFailHandler hs
  | readOk i hAlive hArm hOpen => exact inv_readOkHandler hs i hOpen
  | readFail i hAlive hArm => exact inv_readFailHandler hs i hArm

theorem inv_reachable {s : EPState} (h : Reachable s) : Inv s := by
  induction h with
  | refl => exact inv_initState
  | tail _h hstep ih => exact inv_step ih hstep

theorem deliveriesAux_length_mem (B fuel : Nat) (sent : List Nat) :
    ∀ d ∈ deliveriesAux B fuel sent, d.length = B := by
  induction fuel generalizing sent with
  | zero => intro d hd; simp [deliveriesAux] at hd
  | succ n ih =>
    intro d hd
    rw [deliveriesAux] at hd
    split at hd
    · rename_i hcond
      rcases List.mem_cons.mp hd with h | h
      · subst h
        simpa [List.length_take] using Nat.min_eq_left hcond.2
      · exact ih _ d h
    · simp at hd

theorem deliveriesAux_flatten (B : Nat) (hB : 0 < B) :
    ∀ fuel sent, sent.length ≤ fuel →
      (deliveriesAux B fuel sent).flatten = sent.take (B * (sent.length / B)) := by
  intro fuel
  induction fuel with
  | zero =>
    intro sent hlen
    have : sent = [] := List.eq_nil_of_length_eq_zero (Nat.le_zero.mp hlen)
    subst this; simp [deliveriesAux]
  | succ n ih =>
    intro sent hlen
    rw [deliveriesAux]
    split
    · rename_i hcond
      have hBle : B ≤ sent.length := hcond.2
      have hdroplen : (sent.drop B).length = sent.length - B := List.length_drop B sent
      have hrec := ih (sent.drop B) (by omega)
      rw [List.flatten_cons, hrec, hdroplen]
      have hdiv : sent.length / B = (sent.length - B) / B + 1 :=
        Nat.div_eq_sub_div hB hBle
      rw [hdiv, Nat.mul_add, Nat.mul_one, Nat.add_comm (B * ((sent.length - B) / B)) B,
        List.take_add]
    · rename_i hcond
      have hlt : sent.length < B := by
        by_contra h
        exact hcond ⟨hB, Nat.le_of_not_lt h⟩
      rw [Nat.div_eq_of_lt hlt]
      simp

theorem deliveries_flatten (B : Nat) (sent : List Nat) (hB : 0 < B) :
    (deliveries B sent).flatten = sent.take (B * (sent.length / B)) :=
  deliveriesAux_flatten B hB sent.length sent (Nat.le_refl _)


/-! ## Claim theorems -/

/-- C1 counterexample: an accept completion that reports success but whose
Linux `set_option` call fails leaves the Connection Slot empty (from the
initial state) — so "after each successful accept completion exactly one
socket occupies the slot" fails as stated. -/
theorem tcp_accept_success_throw_empty_slot :
    Step initState (acceptOkHandler initState 0 false false false true) ∧
    (acceptOkHandler initState 0 false false false true).slot = none := by
  exact ⟨Step.acceptOk initState 0 false false false true rfl rfl rfl, rfl⟩

/-- C1 (amended): in every reachable endpoint state at most one socket is
open; and for every successful accept completion whose handler runs to
completion (no socket-option exception), the new socket is the sole slot
occupant, it is open, its Read Loop is armed, while in the intermediate state
`acceptMid` — reached before the options are set, before the new socket is
installed and before its Read Loop is launched — the previous occupant is
already closed and the new socket's read is not yet armed. -/
theorem tcp_accept_replacement_invariant (s : EPState) (hreach : Reachable s) :
    (∀ i j, s.openS i = true → s.openS j = true → i = j) ∧
    (∀ nid rF ndF kaF, s.acceptArmed = true → s.pendingSock = some nid →
      (acceptOkHandler s nid rF ndF kaF false).slot = some nid ∧
      (acceptOkHandler s nid rF ndF kaF false).openS nid = true ∧
      (acceptOkHandler s nid rF ndF kaF false).readArmed nid = true ∧
      (∀ o, s.slot = some o → (acceptMid s nid).openS o = false) ∧
      (acceptMid s nid).readArmed nid = false) := by
  have inv := inv_reachable hreach
  constructor
  · intro i j hi hj
    have h1 := inv.openSlot i hi
    have h2 := inv.openSlot j hj
    rw [h1] at h2
    injection h2
  · intro nid rF ndF kaF _hArm hPend
    obtain ⟨hOp, hRa, _hF, hSl⟩ := inv.pendFresh nid hPend
    have hmid := acceptMid_open_iff inv hSl
    refine ⟨acceptOk_ok_slot s nid rF ndF kaF, ?_, ?_, ?_, ?_⟩
    · rw [acceptOk_ok_openS]
      exact (hmid nid).mpr rfl
    · rw [acceptOk_ok_readArmed]
      simp
    · intro o ho
      have hone : o ≠ nid := fun h => hSl (h ▸ ho)
      by_contra hcon
      simp only [Bool.not_eq_false] at hcon
      exact hone ((hmid o).mp hcon)
    · rw [acceptMid_readArmed]
      exact hRa

theorem tcp_accept_replacement_invariant_witness :
    (acceptOkHandler initState 0 false false false false).slot = some 0 ∧
    (acceptOkHandler initState 0 false false false false).readArmed 0 = true := by
  have h := (tcp_accept_replacement_invariant initState
    Relation.ReflTransGen.refl).2 0 false false false rfl rfl
  exact ⟨h.1, h.2.2.1⟩

/-- C2 counterexample: with buffer capacity 2 and a peer stream of three
bytes, the concatenation of all delivered blocks is not the sent stream — the
trailing byte that never fills the buffer is never delivered. -/
theorem tcp_stream_tail_byte_dropped :
    (deliveries 2 [1, 2, 3]).flatten ≠ [1, 2, 3] ∧
    (deliveries 2 [1, 2, 3]).flatten = [1, 2] := by
  exact ⟨by decide, by decide⟩

/-- C2 (amended): the bytes delivered across consecutive successful reads of
one connection, concatenated in delivery order, form the longest prefix of
the peer's stream whose length is a multiple of the receive-buffer capacity
`B`; the undelivered remainder is exactly the final `sent.length % B` bytes,
and when the peer's total is a multiple of `B` the concatenation equals the
whole stream (no reordering in any case, chunking of the peer's writes
irrelevant). -/
theorem tcp_stream_chunked_fidelity (B : Nat) (sent : List Nat) (hB : 0 < B) :
    (deliveries B sent).flatten ++ sent.drop (B * (sent.length / B)) = sent ∧
    (sent.drop (B * (sent.length / B))).length = sent.length % B ∧
    (B ∣ sent.length → (deliveries B sent).flatten = sent) := by
  refine ⟨?_, ?_, ?_⟩
  · rw [deliveries_flatten B sent hB]
    exact List.take_append_drop _ sent
  · rw [List.length_drop]
    have h := Nat.mod_add_div sent.length B
    omega
  · intro hdvd
    rw [deliveries_flatten B sent hB, Nat.mul_div_cancel' hdvd, List.take_length]

theorem tcp_stream_chunked_fidelity_witness :
    (deliveries 2 [10, 20, 30]).flatten ++ [30] = [10, 20, 30] ∧
    ([30] : List Nat).length = 3 % 2 ∧
    (2 ∣ 3 → (deliveries 2 [10, 20, 30]).flatten = [10, 20, 30]) :=
  tcp_stream_chunked_fidelity 2 [10, 20, 30] (by decide)

/-- C3 counterexample: when one of the two Linux-only `set_option` calls
(lines 66-67, the overloads without an error-code argument) fails, the accept
handler is aborted by the thrown exception: the newly accepted socket is not
installed in the slot, its Read Loop is not launched, and the engine thread
dies — the failure is not silently ignored. -/
theorem tcp_linux_option_failure_aborts_handler :
    (acceptOkHandler initState 0 false false false true).engineAlive = false ∧
    (acceptOkHandler initState 0 false false false true).slot ≠ some 0 ∧
    (acceptOkHandler initState 0 false false false true).readArmed 0 = false := by
  refine ⟨rfl, ?_, rfl⟩
  intro h
  exact Option.noConfusion h

/-- C3 (amended): failures of the three socket-option steps configured with
`ignore_ec` (address reuse, send-delay disable, keep-alive) are silently
ignored — the handler outcome is identical, the new socket is installed and
its Read Loop launched — but a failure of the Linux-only immediate-ack /
transmit-priority steps throws, aborting the handler before installation and
killing the engine thread. -/
theorem tcp_option_failure_handling (s : EPState) (nid : Nat)
    (rF ndF kaF : Bool) (hao : s.acceptorOpen = true) :
    acceptOkHandler s nid rF ndF kaF false =
      acceptOkHandler s nid false false false false ∧
    (acceptOkHandler s nid rF ndF kaF false).slot = some nid ∧
    (acceptOkHandler s nid rF ndF kaF false).readArmed nid = true ∧
    (acceptOkHandler s nid rF ndF kaF false).acceptArmed = true ∧
    (acceptOkHandler s nid rF ndF kaF true).slot = s.slot ∧
    (acceptOkHandler s nid rF ndF kaF true).readArmed = s.readArmed ∧
    (acceptOkHandler s nid rF ndF kaF true).engineAlive = false := by
  refine ⟨rfl, acceptOk_ok_slot s nid rF ndF kaF, ?_,
    acceptOk_ok_acceptArmed s nid rF ndF kaF hao,
    acceptOk_throw_slot s nid rF ndF kaF,
    acceptOk_throw_readArmed s nid rF ndF kaF,
    acceptOk_throw_engineAlive s nid rF ndF kaF⟩
  rw [acceptOk_ok_readArmed]
  simp

theorem tcp_option_failure_handling_witness :
    acceptOkHandler initState 0 true true true false =
      acceptOkHandler initState 0 false false false false ∧
    (acceptOkHandler initState 0 true true true false).slot = some 0 := by
  have h := tcp_option_failure_handling initState 0 true true true rfl
  exact ⟨h.1, h.2.1⟩

/-- C4: `writeClient` with an empty Connection Slot returns the sentinel `-1`
and performs no write; with an occupant it performs the blocking write and
returns the written count, or `-1` when that count is negative or the error
code is set.  (The code guards on slot occupancy — `if (socket_)` — so in
particular every live connection is written to.) -/
theorem tcp_writeClient_spec (s : EPState) (wb : Int) (ec : Bool) :
    (s.slot = none → writeClient s wb ec = (-1, false)) ∧
    (∀ c, s.slot = some c →
      (writeClient s wb ec).2 = true ∧
      (writeClient s wb ec).1 = (if wb < 0 ∨ ec = true then -1 else wb) ∧
      ((wb < 0 ∨ ec = true) → (writeClient s wb ec).1 = -1)) := by
  constructor
  · intro h
    simp [writeClient, h]
  · intro c h
    refine ⟨by simp [writeClient, h], by simp [writeClient, h], fun hcond => ?_⟩
    simp [writeClient, h, hcond]

theorem tcp_writeClient_spec_witness :
    writeClient initState 5 false = (-1, false) ∧
    (writeClient (acceptOkHandler initState 0 false false false false) 5 false).1
      = 5 := by
  refine ⟨(tcp_writeClient_spec initState 5 false).1 rfl, ?_⟩
  have h := ((tcp_writeClient_spec
    (acceptOkHandler initState 0 false false false false) 5 false).2 0 rfl).2.1
  simpa using h

/-- C5: in every reachable state a socket whose read loop failed has no read
armed (the loop is never re-launched for it) and is closed; and the read
failure handler itself never re-arms, marks the socket failed, and — when the
socket was still open — closes it and records the informational close event. -/
theorem tcp_read_failure_terminal (s : EPState) (hreach : Reachable s) :
    (∀ i, s.failedS i = true → s.readArmed i = false ∧ s.openS i = false) ∧
    (∀ i, (readFailHandler s i).readArmed i = false ∧
      (readFailHandler s i).failedS i = true ∧
      (s.openS i = true → (readFailHandler s i).openS i = false ∧
        (readFailHandler s i).log = LogEvent.readFailClosed i :: s.log)) := by
  have inv := inv_reachable hreach
  refine ⟨fun i h => inv.failedDead i h, fun i => ?_⟩
  refine ⟨by rw [readFail_readArmed]; simp, by rw [readFail_failedS]; simp,
    fun h => ⟨by rw [readFail_openS]; simp, readFail_log_open s i h⟩⟩

theorem tcp_read_failure_terminal_witness :
    (readFailHandler (acceptOkHandler initState 0 false false false false) 0
      ).readArmed 0 = false ∧
    (readFailHandler (acceptOkHandler initState 0 false false false false) 0
      ).openS 0 = false := by
  have hr : Reachable (acceptOkHandler initState 0 false false false false) :=
    Relation.ReflTransGen.single
      (Step.acceptOk initState 0 false false false false rfl rfl rfl)
  have h := tcp_read_failure_terminal _ hr
  exact ⟨(h.2 0).1, ((h.2 0).2.2 rfl).1⟩

/-- C6 counterexample: an accept completion on a live endpoint (acceptor open,
engine alive) after which no new accept is armed — the success branch whose
Linux `set_option` call throws skips the trailing `doAccept`. -/
theorem tcp_accept_throw_stops_acceptor_loop :
    initState.acceptorOpen = true ∧
    Step initState (acceptOkHandler initState 0 false false false true) ∧
    (acceptOkHandler initState 0 false false false true).acceptArmed = false := by
  exact ⟨rfl, Step.acceptOk initState 0 false false false true rfl rfl rfl, rfl⟩

/-- C6 (amended): for every accept completion on an endpoint whose acceptor is
open, a new accept is armed afterwards both on the failure branch and on any
success branch that runs to completion (i.e. whose platform-specific option
calls do not throw). -/
theorem tcp_accept_rearm (s : EPState) (nid : Nat) (rF ndF kaF : Bool)
    (hao : s.acceptorOpen = true) :
    (acceptOkHandler s nid rF ndF kaF false).acceptArmed = true ∧
    (acceptFailHandler s).acceptArmed = true :=
  ⟨acceptOk_ok_acceptArmed s nid rF ndF kaF hao, acceptFail_acceptArmed s hao⟩

theorem tcp_accept_rearm_witness :
    (acceptOkHandler initState 0 false false false false).acceptArmed = true ∧
    (acceptFailHandler initState).acceptArmed = true :=
  tcp_accept_rearm initState 0 false false false rfl

/-- C7: handling a read failure on a socket `i` that is not the current slot
occupant `j` leaves the occupant untouched: still installed, its open flag,
armed read and failure flag unchanged — the new connection's Read Loop is not
perturbed. -/
theorem tcp_stale_read_failure_frame (s : EPState) (i j : Nat)
    (hslot : s.slot = some j) (hne : i ≠ j) :
    (readFailHandler s i).slot = some j ∧
    (readFailHandler s i).openS j = s.openS j ∧
    (readFailHandler s i).readArmed j = s.readArmed j ∧
    (readFailHandler s i).failedS j = s.failedS j := by
  have hji : j ≠ i := fun h => hne h.symm
  refine ⟨by rw [readFail_slot]; exact hslot, ?_, ?_, ?_⟩
  · rw [readFail_openS, setOpen_ne _ _ _ _ hji]
  · rw [readFail_readArmed, setOpen_ne _ _ _ _ hji]
  · rw [readFail_failedS, setOpen_ne _ _ _ _ hji]

theorem tcp_stale_read_failure_frame_witness :
    (readFailHandler (acceptOkHandler (acceptOkHandler initState
      0 false false false false) 1 false false false false) 0).slot = some 1 ∧
    (readFailHandler (acceptOkHandler (acceptOkHandler initState
      0 false false false false) 1 false false false false) 0).openS 1 =
      (acceptOkHandler (acceptOkHandler initState
        0 false false false false) 1 false false false false).openS 1 := by
  have h := tcp_stale_read_failure_frame (acceptOkHandler (acceptOkHandler
    initState 0 false false false false) 1 false false false false) 0 1 rfl
    (by decide)
  exact ⟨h.1, h.2.1⟩

/-- C8: `start()` is idempotent — a second call in any state is a no-op, two
successive calls from the fresh static state spawn exactly one reactor
thread, and a following `stop()` succeeds, joining that one thread (spawned
count equals joined count, no thread handle left). -/
theorem tcp_start_idempotent :
    (∀ s : EngineState, startE (startE s) = startE s) ∧
    (startE (startE initEngine)).spawned = 1 ∧
    stopE (startE (startE initEngine)) =
      .ok { thread := false, workGuard := false, ioCtx := false,
            spawned := 1, joined := 1 } := by
  refine ⟨fun s => ?_, rfl, rfl⟩
  by_cases h : s.thread <;> simp [startE, h]

/-- C9: `stop()` called before any `start()` hits the null static work-guard
pointer in its first statement (the reactor pointer is null then as well);
after a completed `start();stop()` cycle a second `stop()` crashes the same
way; in general the null work-guard dereference happens whenever the engine
is not started — the not-started branch is absent rather than a safe no-op. -/
theorem tcp_stop_null_deref :
    stopE initEngine = .error .workGuardNull ∧
    initEngine.workGuard = false ∧ initEngine.ioCtx = false ∧
    (∀ t, stopE (startE initEngine) = .ok t →
      stopE t = .error .workGuardNull) ∧
    (∀ s : EngineState, s.workGuard = false →
      stopE s = .error .workGuardNull) := by
  refine ⟨rfl, rfl, rfl, ?_, ?_⟩
  · intro t ht
    have hok : stopE (startE initEngine) =
        .ok { thread := false, workGuard := false, ioCtx := false,
              spawned := 1, joined := 1 } := rfl
    rw [hok] at ht
    injection ht with ht
    subst ht
    rfl
  · intro s h
    simp [stopE, h]

theorem tcp_stop_null_deref_witness :
    stopE { thread := true, workGuard := false, ioCtx := true,
            spawned := 3, joined := 2 } = .error .workGuardNull :=
  tcp_stop_null_deref.2.2.2.2 _ rfl

/-- C10: every successful read completion delivers exactly the full buffer
capacity `B` (the read is armed over the whole buffer and completes only when
it is full), and the concatenation of all deliveries is exactly the
full-chunk prefix of the peer's stream — bytes that never fill the buffer
before a failure or close are never delivered to the callback. -/
theorem tcp_read_delivers_full_buffer (B : Nat) (sent : List Nat)
    (hB : 0 < B) :
    (∀ d ∈ deliveries B sent, d.length = B) ∧
    (deliveries B sent).flatten = sent.take (B * (sent.length / B)) :=
  ⟨deliveriesAux_length_mem B sent.length sent, deliveries_flatten B sent hB⟩

theorem tcp_read_delivers_full_buffer_witness :
    (∀ d ∈ deliveries 3 [1, 2, 3, 4], d.length = 3) ∧
    (deliveries 3 [1, 2, 3, 4]).flatten = [1, 2, 3] := by
  have h := tcp_read_delivers_full_buffer 3 [1, 2, 3, 4] (by decide)
  exact ⟨h.1, by simpa using h.2⟩

end ELITE
